import Mathlib

/-!
# Verification of the office-service structured document mutation layer

Shallow embedding of the Word / Excel / PowerPoint mutation endpoints of
`src/main.py`.  Every endpoint is modelled by a pure function from the
in-memory document value (the parsed content of the file on disk) to an
`Except ApiError (doc × message)` result: the `.ok` branch carries the
document state that gets saved back to disk together with the response
message, and the `.error` branch corresponds to an HTTP error response
raised before `save`, in which case the file on disk is untouched.

The host document libraries (python-docx, openpyxl, python-pptx) are the
"Document Codec Adapter" of the specification; their tree accessors are
embedded value-level (runs, cells, shapes, relationship ids) following the
contract stated in the specification.
-/

namespace OfficeService

/-- Error taxonomy as surfaced by the endpoints: `outOfRange`/`notFound`
are the explicit HTTP 400 validations in `src/main.py`; `internal` stands
for any exception caught by the generic handler (HTTP 500). -/
inductive ApiError where
  | outOfRange (msg : String)
  | notFound (msg : String)
  | internal (msg : String)
deriving DecidableEq, Repr

/-- A request either fails before saving (`error`, disk unchanged) or
succeeds with the new document state (which is saved) and a message. -/
abbrev ApiResult (α : Type) := Except ApiError α

/-- Python list indexing `xs[i]` for `i : Int`: non-negative indices are
positions, negative indices count from the end; `none` models the
`IndexError` raised when the index is out of bounds in either direction. -/
def pyIdx (n : Nat) (i : Int) : Option Nat :=
  if 0 ≤ i then
    if i < (n : Int) then some i.toNat else none
  else
    if 0 ≤ i + (n : Int) then some (i + (n : Int)).toNat else none

/-- Python `s.lstrip("#")`: drop every leading `'#'`. -/
def stripHash (s : String) : String :=
  ⟨s.data.dropWhile (fun c => c = '#')⟩

/-- One hexadecimal digit (either case), as accepted by
`RGBColor.from_string`. -/
def isHexDigit (c : Char) : Bool :=
  ('0' ≤ c && c ≤ '9') || ('a' ≤ c && c ≤ 'f') || ('A' ≤ c && c ≤ 'F')

/-- `RGBColor.from_string` accepts exactly six hex digits. -/
def isHex6 (s : String) : Bool :=
  s.data.length == 6 && s.data.all isHexDigit

/-- `isPrefixC pat s`: `pat` is a prefix of `s` (character lists). -/
def isPrefixC : List Char → List Char → Bool
  | [], _ => true
  | _ :: _, [] => false
  | a :: as, b :: bs => a == b && isPrefixC as bs

/-- Python substring test `pat in s` on character lists (the empty pattern
is contained in every string). -/
def containsC (s pat : List Char) : Bool :=
  if isPrefixC pat s then true
  else
    match s with
    | [] => false
    | _ :: t => containsC t pat

/-- Recursion core of `replaceC`.  The fuel argument only forces
structural recursion: every recursive step consumes at least one
character of the scanned string and the `[]` case recurses no further,
so starting from fuel `s.length + 1` (one unit per remaining character
plus one for the final `[]` step) the fuel-exhausted branch is never
taken. -/
def replaceCAux (pat rep : List Char) : Nat → List Char → List Char
  | 0, s => s
  | _ + 1, [] => if pat.isEmpty then rep else []
  | fuel + 1, c :: t =>
    if pat.isEmpty then rep ++ c :: replaceCAux pat rep fuel t
    else if isPrefixC pat (c :: t) then rep ++ replaceCAux pat rep fuel (t.drop (pat.length - 1))
    else c :: replaceCAux pat rep fuel t

/-- Python `s.replace(pat, rep)`: replace every non-overlapping occurrence
of `pat`, scanning left to right; for the empty pattern Python inserts
`rep` at every position boundary, including the end of the string
(`"ab".replace("", "-")` is `"-a-b-"`). -/
def replaceC (pat rep s : List Char) : List Char :=
  replaceCAux pat rep (s.length + 1) s

/-- Python `pat in s` on `String`s. -/
def containsS (s pat : String) : Bool := containsC s.data pat.data

/-- Python `s.replace(pat, rep)` on `String`s. -/
def replaceS (s pat rep : String) : String := ⟨replaceC pat.data rep.data s.data⟩

/-! ## Word data model (python-docx view used by `src/main.py`) -/

/-- A run: minimal uniformly formatted text span plus the font attributes
touched by `word_format_text`.  `none` means "inherit"/unset. -/
structure Run where
  text : String
  bold : Option Bool := none
  italic : Option Bool := none
  underline : Option Bool := none
  fontSize : Option Nat := none
  fontName : Option String := none
  color : Option String := none
  hidden : Option Bool := none
deriving DecidableEq, Repr

/-- A paragraph is its ordered list of runs. -/
structure Paragraph where
  runs : List Run
deriving DecidableEq, Repr

/-- A Word document as addressed by the endpoints: its ordered paragraph
sequence (`doc.paragraphs`). -/
structure WordDoc where
  paragraphs : List Paragraph
deriving DecidableEq, Repr

/-- `para.text`: concatenation of the texts of the paragraph's runs. -/
def paraText (p : Paragraph) : String :=
  ⟨(p.runs.map (fun r => r.text.data)).flatten⟩

/-- Inner loop of `word_search_replace`: for each run whose own text
contains the search string, replace it inside that run and count one
run-level replacement. -/
def srRuns (search rep : String) : List Run → List Run × Nat
  | [] => ([], 0)
  | r :: rs =>
    let (rs', c) := srRuns search rep rs
    if containsS r.text search then
      ({ r with text := replaceS r.text search rep } :: rs', c + 1)
    else (r :: rs', c)

/-- Outer loop of `word_search_replace`: runs of a paragraph are examined
only when the paragraph's concatenated text contains the search string. -/
def srParas (search rep : String) : List Paragraph → List Paragraph × Nat
  | [] => ([], 0)
  | p :: ps =>
    let (ps', c) := srParas search rep ps
    if containsS (paraText p) search then
      let (runs', cr) := srRuns search rep p.runs
      (⟨runs'⟩ :: ps', cr + c)
    else (p :: ps', c)

/-- `POST /word/search_replace`: returns the saved document and the count
reported in the response message. -/
def word_search_replace (search rep : String) (doc : WordDoc) : WordDoc × Nat :=
  (⟨(srParas search rep doc.paragraphs).1⟩, (srParas search rep doc.paragraphs).2)

/-- Number of run-level replacements `search_replace` performs inside one
paragraph: zero when the paragraph's concatenated text does not contain
the search string, else the number of runs whose own text contains it. -/
def paraMatchCount (search : String) (p : Paragraph) : Nat :=
  if containsS (paraText p) search then
    (p.runs.filter (fun r => containsS r.text search)).length
  else 0

/-- Request model of `POST /word/format_text` (file path omitted: the
document value stands for the file). -/
structure FormatWordTextReq where
  paragraphIndex : Int
  bold : Option Bool := none
  italic : Option Bool := none
  underline : Option Bool := none
  color : Option String := none
  fontSize : Option Nat := none
  fontName : Option String := none
  hidden : Option Bool := none
deriving DecidableEq, Repr

/-- The per-run mutation of `word_format_text`: each field given in the
request overwrites the run's font attribute, unset fields are untouched.
The color string is stored with leading `#` stripped
(`RGBColor.from_string(req.color.lstrip("#"))`). -/
def applyFmt (req : FormatWordTextReq) (r : Run) : Run :=
  { r with
    bold := match req.bold with | some b => some b | none => r.bold
    italic := match req.italic with | some b => some b | none => r.italic
    underline := match req.underline with | some b => some b | none => r.underline
    fontSize := match req.fontSize with | some n => some n | none => r.fontSize
    fontName := match req.fontName with | some n => some n | none => r.fontName
    color := match req.color with | some c => some (stripHash c) | none => r.color
    hidden := match req.hidden with | some b => some b | none => r.hidden }

/-- `POST /word/format_text`.  The only explicit validation is
`paragraph_index >= len(doc.paragraphs)` (no check for negative indices:
Python end-relative indexing applies, and an index below `-count` raises
`IndexError`, caught by the generic 500 handler).  An invalid color string
makes `RGBColor.from_string` raise on the first run processed, so it only
fails when the paragraph has at least one run; nothing is saved then. -/
def word_format_text (req : FormatWordTextReq) (doc : WordDoc) :
    ApiResult (WordDoc × String) :=
  if (doc.paragraphs.length : Int) ≤ req.paragraphIndex then
    .error (.outOfRange ("Paragraph index " ++ toString req.paragraphIndex ++ " out of range"))
  else
    match pyIdx doc.paragraphs.length req.paragraphIndex with
    | none => .error (.internal "list index out of range")
    | some k =>
      match doc.paragraphs.get? k with
      | none => .error (.internal "list index out of range")
      | some para =>
        let colorBad := match req.color with
          | some c => !isHex6 (stripHash c)
          | none => false
        if colorBad && !para.runs.isEmpty then
          .error (.internal "RGBColor")
        else
          .ok (⟨doc.paragraphs.set k ⟨para.runs.map (applyFmt req)⟩⟩,
               "Formatted paragraph " ++ toString req.paragraphIndex)

/-- `POST /word/delete_paragraph`: same index validation shape as
`word_format_text`; on success the paragraph element is removed from its
parent, i.e. the paragraph sequence loses position `k`. -/
def word_delete_paragraph (paragraphIndex : Int) (doc : WordDoc) :
    ApiResult (WordDoc × String) :=
  if (doc.paragraphs.length : Int) ≤ paragraphIndex then
    .error (.outOfRange ("Paragraph index " ++ toString paragraphIndex ++ " out of range"))
  else
    match pyIdx doc.paragraphs.length paragraphIndex with
    | none => .error (.internal "list index out of range")
    | some k =>
      .ok (⟨doc.paragraphs.eraseIdx k⟩, "Deleted paragraph " ++ toString paragraphIndex)

/-! ## Excel data model (openpyxl view used by `src/main.py`) -/

/-- A cell value: the request models only carry strings, pre-existing
cells may hold numbers (integral values suffice for the claims). -/
inductive CellVal where
  | s (v : String)
  | i (v : Int)
deriving DecidableEq, Repr

/-- Python `str(value)` on a cell value. -/
def cellStr : CellVal → String
  | .s v => v
  | .i v => toString v

/-- A worksheet: sparse cell grid keyed by 1-based `(row, column)` (keys
unique), plus the `sheet_state` visibility flag. -/
structure Sheet where
  cells : List ((Nat × Nat) × CellVal)
  state : String := "visible"
deriving DecidableEq, Repr

/-- A fresh worksheet as produced by `wb.create_sheet`. -/
def emptySheet : Sheet := { cells := [] }

/-- Read one cell (`None` for an absent cell). -/
def getCell (sh : Sheet) (r c : Nat) : Option CellVal :=
  sh.cells.lookup (r, c)

/-- `ws.cell(row=r, column=c, value=v)`: overwrite or create the cell. -/
def setCell (sh : Sheet) (r c : Nat) (v : CellVal) : Sheet :=
  { sh with cells := ((r, c), v) :: sh.cells.filter (fun e => e.1 ≠ (r, c)) }

/-- `for col, v in enumerate(vals, c): ws.cell(row=r, column=col, value=v)`. -/
def writeRowFrom (sh : Sheet) (r c : Nat) : List String → Sheet
  | [] => sh
  | v :: vs => writeRowFrom (setCell sh r c (.s v)) r (c + 1) vs

/-- `for row_idx, row in enumerate(rows, r): ...` writing each row from
column 1. -/
def writeRowsFrom (sh : Sheet) (r : Nat) : List (List String) → Sheet
  | [] => sh
  | row :: rest => writeRowsFrom (writeRowFrom sh r 1 row) (r + 1) rest

/-- A workbook: ordered sheets keyed by their unique names. -/
structure Workbook where
  sheets : List (String × Sheet)
deriving DecidableEq, Repr

/-- `wb[name]`-style in-place update of the (first) sheet with the given
name. -/
def updateSheet : List (String × Sheet) → String → (Sheet → Sheet) → List (String × Sheet)
  | [], _, _ => []
  | (n, sh) :: rest, name, f =>
    if n = name then (n, f sh) :: rest
    else (n, sh) :: updateSheet rest name f

/-- Request model of `POST /excel/write_data`. -/
structure WriteExcelDataReq where
  sheetName : String
  headers : List String := []
  rows : List (List String) := []
  hidden : Bool := false
deriving DecidableEq, Repr

/-- Body of `excel_write_data` on the target worksheet: headers into
row 1 starting at column 1, data rows from row 2; the `hidden` flag sets
`sheet_state`.  Cells outside the written rectangle are not touched. -/
def writeDataSheet (req : WriteExcelDataReq) (sh : Sheet) : Sheet :=
  let sh1 := writeRowFrom sh 1 1 req.headers
  let sh2 := writeRowsFrom sh1 2 req.rows
  if req.hidden then { sh2 with state := "hidden" } else sh2

/-- `POST /excel/write_data`: targets the sheet by name, appending a new
empty sheet (`wb.create_sheet`) when the name is absent; always saves. -/
def excel_write_data (req : WriteExcelDataReq) (wb : Workbook) :
    ApiResult (Workbook × String) :=
  let sheets1 :=
    if (wb.sheets.lookup req.sheetName).isSome then wb.sheets
    else wb.sheets ++ [(req.sheetName, emptySheet)]
  .ok (⟨updateSheet sheets1 req.sheetName (writeDataSheet req)⟩,
       "Data written to " ++ req.sheetName)

/-- `ws.min_row` (1 when the sheet has no cells). -/
def minRow (sh : Sheet) : Nat :=
  match sh.cells.map (fun e => e.1.1) with
  | [] => 1
  | x :: xs => xs.foldl Nat.min x

/-- `ws.max_row` (1 when the sheet has no cells). -/
def maxRow (sh : Sheet) : Nat :=
  match sh.cells.map (fun e => e.1.1) with
  | [] => 1
  | x :: xs => xs.foldl Nat.max x

/-- `ws.min_column` (1 when the sheet has no cells). -/
def minCol (sh : Sheet) : Nat :=
  match sh.cells.map (fun e => e.1.2) with
  | [] => 1
  | x :: xs => xs.foldl Nat.min x

/-- `ws.max_column` (1 when the sheet has no cells). -/
def maxCol (sh : Sheet) : Nat :=
  match sh.cells.map (fun e => e.1.2) with
  | [] => 1
  | x :: xs => xs.foldl Nat.max x

/-- The textual rendering of one cell in `excel_read`:
`str(cell) if cell is not None else ""`. -/
def cellDisplay (sh : Sheet) (r c : Nat) : String :=
  match getCell sh r c with
  | some v => cellStr v
  | none => ""

/-- `ws.iter_rows(values_only=True)` over the sheet's used range followed
by the per-cell coercion of `excel_read`. -/
def readSheet (sh : Sheet) : List (List String) :=
  (List.range' (minRow sh) (maxRow sh + 1 - minRow sh)).map fun r =>
    (List.range' (minCol sh) (maxCol sh + 1 - minCol sh)).map fun c =>
      cellDisplay sh r c

/-- `POST /excel/read`:
`sheets_to_read = [req.sheet_name] if req.sheet_name else wb.sheetnames`
— the Python truthiness test sends both a missing and an EMPTY-STRING
sheet name to the all-sheets branch; a non-empty named sheet that is
absent is silently skipped (`continue`), not an error.  Each returned
sheet carries its row grid and its hidden flag. -/
def excel_read (sheetName : Option String) (wb : Workbook) :
    ApiResult (List (String × (List (List String) × Bool))) :=
  let sheetsToRead := match sheetName with
    | some n => if n = "" then wb.sheets.map Prod.fst else [n]
    | none => wb.sheets.map Prod.fst
  .ok (sheetsToRead.filterMap fun n =>
    (wb.sheets.lookup n).map fun sh => (n, (readSheet sh, sh.state == "hidden")))

/-- Rename the (unique) sheet carrying the old name. -/
def renameFirst : List (String × Sheet) → String → String → List (String × Sheet)
  | [], _, _ => []
  | (n, sh) :: rest, old, new =>
    if n = old then (new, sh) :: rest
    else (n, sh) :: renameFirst rest old new

/-- `POST /excel/rename_sheet`.  The `NotFound` guard is explicit in
`src/main.py`.  Modelled from the spec: the codec adapter's sheet-title
setter (`ws.title = new_name`, outside `src/`) requires a non-empty new
name — a missing or empty `new_name` raises, caught by the generic 500
handler, and nothing is saved. -/
def excel_rename_sheet (sheetName : String) (newName : Option String) (wb : Workbook) :
    ApiResult (Workbook × String) :=
  if (wb.sheets.lookup sheetName).isNone then
    .error (.notFound ("Sheet '" ++ sheetName ++ "' not found"))
  else
    match newName with
    | none => .error (.internal "Title must have at least one character")
    | some t =>
      if t = "" then .error (.internal "Title must have at least one character")
      else
        .ok (⟨renameFirst wb.sheets sheetName t⟩,
             "Renamed '" ++ sheetName ++ "' -> '" ++ t ++ "'")

/-! ## PowerPoint data model (python-pptx view used by `src/main.py`) -/

/-- The geometric presets reachable from `pptx_add_shape`'s `shape_map`. -/
inductive MsoShape where
  | rectangle
  | roundedRectangle
  | oval
  | isoscelesTriangle
  | diamond
  | pentagon
  | hexagon
  | cloud
  | star5Point
  | rightArrow
  | leftArrow
deriving DecidableEq, Repr

/-- The literal `shape_map` dictionary of `pptx_add_shape`. -/
def shape_map : List (String × MsoShape) :=
  [("rectangle", .rectangle),
   ("rounded_rectangle", .roundedRectangle),
   ("oval", .oval),
   ("triangle", .isoscelesTriangle),
   ("diamond", .diamond),
   ("pentagon", .pentagon),
   ("hexagon", .hexagon),
   ("cloud", .cloud),
   ("star", .star5Point),
   ("arrow_right", .rightArrow),
   ("arrow_left", .leftArrow)]

/-- Python `s.lower()` (ASCII range; the recognized keys are ASCII). -/
def toLowerC (s : String) : String :=
  ⟨s.data.map Char.toLower⟩

/-- `shape_map.get(req.shape_type.lower(), MSO_SHAPE.RECTANGLE)`. -/
def shapeLookup (s : String) : MsoShape :=
  match shape_map.lookup (toLowerC s) with
  | some m => m
  | none => .rectangle

/-- EMU per inch (`pptx.util.Inches`). -/
def emuPerInch : Int := 914400

/-- `Inches(x)` produces an EMU length, truncating toward zero as
Python's `int()` does. -/
def inchesToEmu (x : Rat) : Int :=
  Int.tdiv (x.num * emuPerInch) (x.den : Int)

/-- A shape on a slide: geometry preset (for autoshapes), placeholder
index (for placeholders; title placeholders carry index 0), effective
bounds in EMU, optional text frame, optional solid fill (hex RGB), and
the cell grid when the shape is a table's graphic frame. -/
structure PptxShape where
  name : String := ""
  preset : Option MsoShape := none
  phIdx : Option Nat := none
  left : Int := 0
  top : Int := 0
  width : Int := 0
  height : Int := 0
  textFrame : Option String := none
  fill : Option String := none
  table : Option (List (List String)) := none
deriving DecidableEq, Repr

/-- A slide: the layout it was instantiated from (index into the deck's
layout list), its ordered shape tree, and its notes text (`none` when no
notes slide exists yet). -/
structure Slide where
  layoutIdx : Nat
  shapes : List PptxShape
  notes : Option String := none
deriving DecidableEq, Repr

/-- A slide layout: its name and its cloneable placeholder shapes. -/
structure SlideLayout where
  name : String
  placeholders : List PptxShape
deriving DecidableEq, Repr

/-- A presentation: the ordered slide list (each entry pairs the slide
with the relationship id its `sldId` entry carries), the presentation
part's relationship table (its keys), and the available layouts. -/
structure Pptx where
  slides : List (String × Slide)
  rels : List String
  layouts : List SlideLayout
deriving DecidableEq, Repr

/-- `python-pptx` relationship-id generation: the first `rIdN`, `N ≥ 1`,
not already used by the part. -/
def freshRIdAux (rels : List String) : Nat → Nat → String
  | 0, n => "rId" ++ toString n
  | fuel + 1, n =>
    if rels.contains ("rId" ++ toString n) then freshRIdAux rels fuel (n + 1)
    else "rId" ++ toString n

/-- The relationship id a new slide part gets. -/
def freshRId (rels : List String) : String :=
  freshRIdAux rels (rels.length + 1) 1

/-- Modelled from the spec: `slides.add_slide(layout)` starts the new
slide with the layout's default placeholder shapes.  python-pptx clones
each cloneable layout placeholder as a fresh minimal placeholder `sp`
(same placeholder index and inherited geometry, empty text body, no
fill or table content). -/
def clonePh (s : PptxShape) : PptxShape :=
  { s with textFrame := s.textFrame.map (fun _ => ""), fill := none, table := none }

/-- The standard out-of-range message of the pptx endpoints. -/
def slideOOR (i : Int) : ApiError :=
  .outOfRange ("Slide index " ++ toString i ++ " out of range")

/-- Replace slide `k` (keeping its relationship id). -/
def setSlideAt (slides : List (String × Slide)) (k : Nat) (s' : Slide) :
    List (String × Slide) :=
  match slides.get? k with
  | some (rId, _) => slides.set k (rId, s')
  | none => slides

/-- `tbl.cell(i, j).text = v` on a row-major grid. -/
def setGridCell (grid : List (List String)) (i j : Nat) (v : String) :
    List (List String) :=
  match grid.get? i with
  | some row => grid.set i (row.set j v)
  | none => grid

/-- Header-filling loop of the table endpoints. -/
def fillHeaderRow (grid : List (List String)) (headers : List String) :
    List (List String) :=
  (headers.enum).foldl (fun g jh => setGridCell g 0 jh.1 jh.2) grid

/-- Data-row-filling loop of the table endpoints: values beyond the
declared column count are silently dropped (`if j < num_cols`). -/
def fillDataRows (grid : List (List String)) (rowOffset numCols : Nat)
    (rows : List (List String)) : List (List String) :=
  (rows.enum).foldl
    (fun g irow =>
      (irow.2.enum).foldl
        (fun g' jv => if jv.1 < numCols then setGridCell g' (irow.1 + rowOffset) jv.1 jv.2 else g')
        g)
    grid

/-- Request model of `POST /pptx/add_table`. -/
structure AddPptxTableReq where
  slideIndex : Int
  headers : List String := []
  rows : List (List String) := []
  left : Rat := 1
  top : Rat := 2
  width : Rat := 8
  height : Rat := 3
deriving DecidableEq, Repr

/-- `POST /pptx/add_table`: validates the slide index, derives the
column count from headers (else from the first data row, else 1) and the
row count from `(1 if headers) + len(rows)`, then appends a table
graphic-frame shape at the given bounds and fills its cells. -/
def pptx_add_table (req : AddPptxTableReq) (p : Pptx) : ApiResult (Pptx × String) :=
  if req.slideIndex < 0 ∨ (p.slides.length : Int) ≤ req.slideIndex then
    .error (slideOOR req.slideIndex)
  else
    let k := req.slideIndex.toNat
    match p.slides.get? k with
    | none => .error (.internal "list index out of range")
    | some (_, s) =>
      let numCols := if req.headers ≠ [] then req.headers.length
        else match req.rows with
          | r :: _ => r.length
          | [] => 1
      let numRows := (if req.headers ≠ [] then 1 else 0) + req.rows.length
      let grid0 := List.replicate numRows (List.replicate numCols "")
      let grid1 := if req.headers ≠ [] then fillHeaderRow grid0 req.headers else grid0
      let rowOffset := if req.headers ≠ [] then 1 else 0
      let grid2 := fillDataRows grid1 rowOffset numCols req.rows
      let shape : PptxShape :=
        { left := inchesToEmu req.left, top := inchesToEmu req.top,
          width := inchesToEmu req.width, height := inchesToEmu req.height,
          table := some grid2 }
      .ok (⟨setSlideAt p.slides k { s with shapes := s.shapes ++ [shape] },
            p.rels, p.layouts⟩,
           "Table added to slide " ++ toString req.slideIndex)

/-- `slide.placeholders`: the placeholder shapes of the slide. -/
def placeholdersOf (s : Slide) : List PptxShape :=
  s.shapes.filter (fun sh => sh.phIdx.isSome)

/-- Whether some shape carries placeholder index `idx`
(`slide.placeholders[idx]` succeeds). -/
def hasPh (shapes : List PptxShape) (idx : Nat) : Bool :=
  shapes.any (fun sh => sh.phIdx == some idx)

/-- Set the text of the first placeholder with index `idx`
(`slide.placeholders[idx].text = t`; title placeholders are index 0,
so `slide.shapes.title.text = t` is `setPhText shapes 0 t`). -/
def setPhText : List PptxShape → Nat → String → List PptxShape
  | [], _, _ => []
  | sh :: rest, idx, t =>
    if sh.phIdx == some idx then { sh with textFrame := some t } :: rest
    else sh :: setPhText rest idx t

/-- The three optional fields of `POST /pptx/update_slide`. -/
structure UpdateSlideReq where
  slideIndex : Int
  title : Option String := none
  content : Option String := none
  notes : Option String := none
deriving DecidableEq, Repr

/-- `if req.notes is not None: slide.notes_slide.notes_text_frame.text =
req.notes` — accessing `notes_slide` creates the notes sub-document when
none exists, so the notes text is written unconditionally. -/
def applyNotes (notes : Option String) (s : Slide) : Slide :=
  match notes with
  | some t => { s with notes := some t }
  | none => s

/-- Field updates of `pptx_update_slide` on the resolved slide: title only
when a title placeholder exists, content only when the slide has more
than one placeholder (a `KeyError` escapes as a 500 when no placeholder
carries index 1), notes unconditionally. -/
def updateSlideFields (title content notes : Option String) (s : Slide) :
    ApiResult Slide :=
  let s1 := match title with
    | some t => if hasPh s.shapes 0 then { s with shapes := setPhText s.shapes 0 t } else s
    | none => s
  match content with
  | some c =>
    if (placeholdersOf s1).length > 1 then
      if hasPh s1.shapes 1 then
        .ok (applyNotes notes { s1 with shapes := setPhText s1.shapes 1 c })
      else .error (.internal "KeyError: 1")
    else .ok (applyNotes notes s1)
  | none => .ok (applyNotes notes s1)

/-- `POST /pptx/update_slide`. -/
def pptx_update_slide (req : UpdateSlideReq) (p : Pptx) : ApiResult (Pptx × String) :=
  if req.slideIndex < 0 ∨ (p.slides.length : Int) ≤ req.slideIndex then
    .error (slideOOR req.slideIndex)
  else
    let k := req.slideIndex.toNat
    match p.slides.get? k with
    | none => .error (.internal "list index out of range")
    | some (_, s) =>
      (updateSlideFields req.title req.content req.notes s).map fun s' =>
        (⟨setSlideAt p.slides k s', p.rels, p.layouts⟩,
         "Updated slide " ++ toString req.slideIndex)

/-- `POST /pptx/delete_slide`: after the index validation it reads the
slide's relationship id from the `sldIdLst` entry, drops that
relationship from the presentation part (`prs.part.drop_rel(rId)`, a
`KeyError` when absent), and deletes the `sldId` entry itself. -/
def pptx_delete_slide (slideIndex : Int) (p : Pptx) : ApiResult (Pptx × String) :=
  if slideIndex < 0 ∨ (p.slides.length : Int) ≤ slideIndex then
    .error (slideOOR slideIndex)
  else
    let k := slideIndex.toNat
    match p.slides.get? k with
    | none => .error (.internal "list index out of range")
    | some (rId, _) =>
      if p.rels.contains rId then
        .ok (⟨p.slides.eraseIdx k, p.rels.erase rId, p.layouts⟩,
             "Deleted slide " ++ toString slideIndex)
      else .error (.internal "KeyError")

/-- `POST /pptx/duplicate_slide`: adds a slide from the source slide's
layout (appended at the end of the deck with a fresh relationship id and
the layout's cloned placeholders), then deep-copies every shape element
of the source slide onto the new slide's shape tree.  The comment in the
source about removing the default placeholder shapes is not implemented:
the cloned placeholders stay. -/
def pptx_duplicate_slide (slideIndex : Int) (p : Pptx) : ApiResult (Pptx × String) :=
  if slideIndex < 0 ∨ (p.slides.length : Int) ≤ slideIndex then
    .error (slideOOR slideIndex)
  else
    let k := slideIndex.toNat
    match p.slides.get? k with
    | none => .error (.internal "list index out of range")
    | some (_, source) =>
      match p.layouts.get? source.layoutIdx with
      | none => .error (.internal "layout")
      | some layout =>
        let rId := freshRId p.rels
        let newSlide : Slide :=
          { layoutIdx := source.layoutIdx,
            shapes := layout.placeholders.map clonePh ++ source.shapes,
            notes := none }
        .ok (⟨p.slides ++ [(rId, newSlide)], p.rels ++ [rId], p.layouts⟩,
             "Duplicated slide " ++ toString slideIndex)

/-- `POST /pptx/set_notes`: overwrites the notes text, creating the notes
sub-document when none exists (`slide.notes_slide` auto-creates). -/
def pptx_set_notes (slideIndex : Int) (notes : String) (p : Pptx) :
    ApiResult (Pptx × String) :=
  if slideIndex < 0 ∨ (p.slides.length : Int) ≤ slideIndex then
    .error (slideOOR slideIndex)
  else
    let k := slideIndex.toNat
    match p.slides.get? k with
    | none => .error (.internal "list index out of range")
    | some (_, s) =>
      .ok (⟨setSlideAt p.slides k { s with notes := some notes }, p.rels, p.layouts⟩,
           "Notes set on slide " ++ toString slideIndex)

/-- Per-shape record returned by `pptx_get_slide_info`. -/
structure ShapeInfo where
  name : String
  left : Int
  top : Int
  width : Int
  height : Int
  text : Option String
  tableRows : Option Nat
  tableCols : Option Nat
deriving DecidableEq, Repr

/-- The info record built for one shape. -/
def shapeInfoOf (sh : PptxShape) : ShapeInfo :=
  { name := sh.name, left := sh.left, top := sh.top,
    width := sh.width, height := sh.height,
    text := sh.textFrame,
    tableRows := sh.table.map List.length,
    tableCols := sh.table.map (fun g => (g.headD []).length) }

/-- `POST /pptx/get_slide_info`: read-only (never saves); returns the
per-shape info, the notes text (empty string when no notes slide), and
the layout name. -/
def pptx_get_slide_info (slideIndex : Int) (p : Pptx) :
    ApiResult (List ShapeInfo × String × String) :=
  if slideIndex < 0 ∨ (p.slides.length : Int) ≤ slideIndex then
    .error (slideOOR slideIndex)
  else
    let k := slideIndex.toNat
    match p.slides.get? k with
    | none => .error (.internal "list index out of range")
    | some (_, s) =>
      match p.layouts.get? s.layoutIdx with
      | none => .error (.internal "layout")
      | some layout =>
        .ok (s.shapes.map shapeInfoOf, s.notes.getD "", layout.name)

/-- Request model of `POST /pptx/add_shape`. -/
structure AddPptxShapeReq where
  slideIndex : Int
  shapeType : String := "rectangle"
  left : Rat := 1
  top : Rat := 1
  width : Rat := 3
  height : Rat := 1
  text : String := ""
  fillColor : Option String := none
deriving DecidableEq, Repr

/-- The fill the added shape ends up with: `if req.fill_color:` skips the
empty string, otherwise the solid fill uses the hex value with leading
`#` stripped. -/
def fillVal (fillColor : Option String) : Option String :=
  match fillColor with
  | none => none
  | some c => if c = "" then none else some (stripHash c)

/-- Whether the fill step of `pptx_add_shape` avoids the
`RGBColor.from_string` exception. -/
def fillOk (fillColor : Option String) : Bool :=
  match fillColor with
  | none => true
  | some c => c = "" || isHex6 (stripHash c)

/-- The autoshape `pptx_add_shape` appends: preset from `shape_map` with
rectangle as default for unrecognized keys, explicit bounds, a text frame
(autoshapes always carry one; `if req.text:` writes the text, and an
empty request text leaves the default empty text), optional solid fill. -/
def mkAddedShape (req : AddPptxShapeReq) : PptxShape :=
  { preset := some (shapeLookup req.shapeType),
    left := inchesToEmu req.left, top := inchesToEmu req.top,
    width := inchesToEmu req.width, height := inchesToEmu req.height,
    textFrame := some req.text,
    fill := fillVal req.fillColor }

/-- `POST /pptx/add_shape`. -/
def pptx_add_shape (req : AddPptxShapeReq) (p : Pptx) : ApiResult (Pptx × String) :=
  if req.slideIndex < 0 ∨ (p.slides.length : Int) ≤ req.slideIndex then
    .error (slideOOR req.slideIndex)
  else
    let k := req.slideIndex.toNat
    match p.slides.get? k with
    | none => .error (.internal "list index out of range")
    | some (_, s) =>
      if fillOk req.fillColor then
        .ok (⟨setSlideAt p.slides k { s with shapes := s.shapes ++ [mkAddedShape req] },
              p.rels, p.layouts⟩,
             "Shape '" ++ req.shapeType ++ "' added to slide " ++ toString req.slideIndex)
      else .error (.internal "RGBColor")

/-- The slide text assembled by `pptx_read`: the texts of the shapes that
carry a text frame, in shape order, joined by newlines. -/
def slideText (s : Slide) : String :=
  String.intercalate "\n" (s.shapes.filterMap (fun sh => sh.textFrame))

/-- `POST /pptx/read`: 1-based slide numbers, joined shape text, notes
text (empty when no notes slide exists).  Read-only. -/
def pptx_read (p : Pptx) : ApiResult (List (Nat × String × String)) :=
  .ok (p.slides.enum.map fun e => (e.1 + 1, slideText e.2.2, e.2.2.notes.getD ""))

/-- The rectangle of cells `excel_write_data` writes: row 1 over the
header columns, and row `i + 2` over the columns of the `i`-th data row
(columns are 1-based). -/
def writtenCell (req : WriteExcelDataReq) (r c : Nat) : Prop :=
  (r = 1 ∧ 1 ≤ c ∧ c ≤ req.headers.length) ∨
  (∃ i row, req.rows.get? i = some row ∧ r = i + 2 ∧ 1 ≤ c ∧ c ≤ row.length)

/-! ## Helper lemmas -/

/-- A successful `get?` bounds the index. -/
theorem get?_lt_length {α : Type} {l : List α} {k : Nat} {a : α}
    (h : l.get? k = some a) : k < l.length := by
  by_contra hc
  rw [List.get?_eq_none.mpr (Nat.le_of_not_lt hc)] at h
  exact Option.noConfusion h

/-! ## C1 -/

/-- C1 (amended).  Index validation: each of the seven per-slide pptx
operations fails with `OutOfRange` (and therefore performs no save) for
every slide index `i < 0` or `i ≥ count`; the two Word operations
(`format_text`, `delete_paragraph`) fail with `OutOfRange` only for
`i ≥ count` — a negative paragraph index is not rejected, Python
end-relative indexing applies instead (shown here for
`delete_paragraph`, which deletes the `(i + count)`-th paragraph for
`-count ≤ i < 0`). -/
theorem c1_index_validation :
    (∀ (req : AddPptxTableReq) (p : Pptx),
      req.slideIndex < 0 ∨ (p.slides.length : Int) ≤ req.slideIndex →
      pptx_add_table req p = .error (slideOOR req.slideIndex)) ∧
    (∀ (req : UpdateSlideReq) (p : Pptx),
      req.slideIndex < 0 ∨ (p.slides.length : Int) ≤ req.slideIndex →
      pptx_update_slide req p = .error (slideOOR req.slideIndex)) ∧
    (∀ (i : Int) (p : Pptx),
      i < 0 ∨ (p.slides.length : Int) ≤ i →
      pptx_delete_slide i p = .error (slideOOR i)) ∧
    (∀ (i : Int) (p : Pptx),
      i < 0 ∨ (p.slides.length : Int) ≤ i →
      pptx_duplicate_slide i p = .error (slideOOR i)) ∧
    (∀ (i : Int) (notes : String) (p : Pptx),
      i < 0 ∨ (p.slides.length : Int) ≤ i →
      pptx_set_notes i notes p = .error (slideOOR i)) ∧
    (∀ (i : Int) (p : Pptx),
      i < 0 ∨ (p.slides.length : Int) ≤ i →
      pptx_get_slide_info i p = .error (slideOOR i)) ∧
    (∀ (req : AddPptxShapeReq) (p : Pptx),
      req.slideIndex < 0 ∨ (p.slides.length : Int) ≤ req.slideIndex →
      pptx_add_shape req p = .error (slideOOR req.slideIndex)) ∧
    (∀ (req : FormatWordTextReq) (doc : WordDoc),
      (doc.paragraphs.length : Int) ≤ req.paragraphIndex →
      word_format_text req doc =
        .error (.outOfRange ("Paragraph index " ++ toString req.paragraphIndex ++ " out of range"))) ∧
    (∀ (i : Int) (doc : WordDoc),
      (doc.paragraphs.length : Int) ≤ i →
      word_delete_paragraph i doc =
        .error (.outOfRange ("Paragraph index " ++ toString i ++ " out of range"))) ∧
    (∀ (i : Int) (doc : WordDoc),
      i < 0 → 0 ≤ i + (doc.paragraphs.length : Int) →
      word_delete_paragraph i doc =
        .ok (⟨doc.paragraphs.eraseIdx (i + (doc.paragraphs.length : Int)).toNat⟩,
             "Deleted paragraph " ++ toString i)) := by
  refine ⟨?_, ?_, ?_, ?_, ?_, ?_, ?_, ?_, ?_, ?_⟩
  · intro req p h; rw [pptx_add_table, if_pos h]
  · intro req p h; rw [pptx_update_slide, if_pos h]
  · intro i p h; rw [pptx_delete_slide, if_pos h]
  · intro i p h; rw [pptx_duplicate_slide, if_pos h]
  · intro i notes p h; rw [pptx_set_notes, if_pos h]
  · intro i p h; rw [pptx_get_slide_info, if_pos h]
  · intro req p h; rw [pptx_add_shape, if_pos h]
  · intro req doc h; rw [word_format_text, if_pos h]
  · intro i doc h; rw [word_delete_paragraph, if_pos h]
  · intro i doc hneg hge
    rw [word_delete_paragraph, if_neg (by omega)]
    rw [pyIdx, if_neg (by omega), if_pos hge]

/-- C1 counterexample: `word_format_text` at index `-1` on a one-paragraph
document is NOT rejected with `OutOfRange`; it formats the last paragraph
and saves. -/
theorem c1_negative_word_index_cex :
    word_format_text { paragraphIndex := -1, bold := some true }
      ⟨[⟨[{ text := "hi" }]⟩]⟩ =
    .ok (⟨[⟨[{ text := "hi", bold := some true }]⟩]⟩, "Formatted paragraph -1") := by
  rfl

/-- C1 witness: the amended theorem applied at slide index 5 of an empty
presentation and at paragraph index 2 / -1 of a one-paragraph document. -/
theorem c1_witness :
    pptx_delete_slide 5 ⟨[], [], []⟩ = .error (slideOOR 5) ∧
    pptx_duplicate_slide (-1) ⟨[], [], []⟩ = .error (slideOOR (-1)) ∧
    word_delete_paragraph 2 ⟨[⟨[]⟩]⟩ =
      .error (.outOfRange ("Paragraph index " ++ toString (2 : Int) ++ " out of range")) ∧
    word_delete_paragraph (-1) ⟨[⟨[]⟩]⟩ =
      .ok (⟨[]⟩, "Deleted paragraph " ++ toString (-1 : Int)) := by
  refine ⟨?_, ?_, ?_, ?_⟩
  · exact c1_index_validation.2.2.1 5 ⟨[], [], []⟩ (by right; decide)
  · exact c1_index_validation.2.2.2.1 (-1) ⟨[], [], []⟩ (by left; decide)
  · exact c1_index_validation.2.2.2.2.2.2.2.2.1 2 ⟨[⟨[]⟩]⟩ (by decide)
  · exact c1_index_validation.2.2.2.2.2.2.2.2.2 (-1) ⟨[⟨[]⟩]⟩ (by decide) (by decide)

/-! ## C2 -/

/-- C2.  `delete_slide k` on a valid index removes exactly the `k`-th
entry of the ordered slide list (a subsequent `read` reports one slide
fewer) and erases that slide's relationship id from the presentation
part's relationship table, so the saved container keeps no stale
relationship entry for the deleted slide. -/
theorem c2_delete_slide_releases_rel
    (p : Pptx) (k : Nat) (rId : String) (s : Slide)
    (hget : p.slides.get? k = some (rId, s))
    (hnodup : p.rels.Nodup) (hmem : rId ∈ p.rels) :
    pptx_delete_slide (k : Int) p =
      .ok (⟨p.slides.eraseIdx k, p.rels.erase rId, p.layouts⟩,
           "Deleted slide " ++ toString (k : Int)) ∧
    (p.slides.eraseIdx k).length = p.slides.length - 1 ∧
    rId ∉ p.rels.erase rId ∧
    (∃ L, pptx_read ⟨p.slides.eraseIdx k, p.rels.erase rId, p.layouts⟩ = .ok L ∧
      L.length = p.slides.length - 1) := by
  have hk : k < p.slides.length := get?_lt_length hget
  refine ⟨?_, ?_, ?_, ?_⟩
  · rw [pptx_delete_slide, if_neg (by omega)]
    have hc : p.rels.contains rId = true := by simpa using hmem
    simp only [Int.toNat_natCast, hget, hc, if_true]
  · rw [List.length_eraseIdx]
    simp [hk]
  · intro hin
    exact (hnodup.mem_erase_iff.mp hin).1 rfl
  · refine ⟨_, rfl, ?_⟩
    simp only [pptx_read]
    rw [List.length_map, List.enum_length, List.length_eraseIdx]
    simp [hk]

/-- C2 witness: deleting slide 0 of a concrete two-slide deck. -/
theorem c2_witness :
    pptx_delete_slide (0 : Nat) ⟨[("rId2", ⟨0, [], none⟩), ("rId3", ⟨0, [], none⟩)],
        ["rId1", "rId2", "rId3"], [⟨"L", []⟩]⟩ =
      .ok (⟨[("rId3", ⟨0, [], none⟩)], ["rId1", "rId3"], [⟨"L", []⟩]⟩,
           "Deleted slide " ++ toString ((0 : Nat) : Int)) ∧
    "rId2" ∉ (["rId1", "rId2", "rId3"] : List String).erase "rId2" := by
  have h := c2_delete_slide_releases_rel
    ⟨[("rId2", ⟨0, [], none⟩), ("rId3", ⟨0, [], none⟩)],
        ["rId1", "rId2", "rId3"], [⟨"L", []⟩]⟩ 0 "rId2" ⟨0, [], none⟩
    rfl (by decide) (by decide)
  exact ⟨h.1, h.2.2.1⟩

/-! ## C3 -/

/-- C3 (amended).  `duplicate_slide k` appends exactly one new slide at
the end of the deck (position `N`) and leaves count and content of slides
`0..N-1` unchanged; but the new slide's shapes are the source layout's
cloned default placeholders followed by copies of all of slide `k`'s
shapes — so slide `k`'s shape text content is a suffix of (not equal to)
the new slide's shape text content whenever the layout contributes
text-frame placeholders. -/
theorem c3_duplicate_appends_layout_placeholders_and_copies
    (p : Pptx) (k : Nat) (rId : String) (s : Slide) (layout : SlideLayout)
    (hget : p.slides.get? k = some (rId, s))
    (hlay : p.layouts.get? s.layoutIdx = some layout) :
    pptx_duplicate_slide (k : Int) p =
      .ok (⟨p.slides ++
              [(freshRId p.rels,
                ⟨s.layoutIdx, layout.placeholders.map clonePh ++ s.shapes, none⟩)],
            p.rels ++ [freshRId p.rels], p.layouts⟩,
           "Duplicated slide " ++ toString (k : Int)) ∧
    (p.slides ++
       [(freshRId p.rels,
         (⟨s.layoutIdx, layout.placeholders.map clonePh ++ s.shapes, none⟩ : Slide))]).length =
      p.slides.length + 1 ∧
    (p.slides ++
       [(freshRId p.rels,
         (⟨s.layoutIdx, layout.placeholders.map clonePh ++ s.shapes, none⟩ : Slide))]).take
        p.slides.length = p.slides ∧
    (layout.placeholders.map clonePh ++ s.shapes).filterMap (fun sh => sh.textFrame) =
      (layout.placeholders.map clonePh).filterMap (fun sh => sh.textFrame) ++
        s.shapes.filterMap (fun sh => sh.textFrame) ∧
    (s.shapes.filterMap (fun sh => sh.textFrame)).IsSuffix
      ((layout.placeholders.map clonePh ++ s.shapes).filterMap (fun sh => sh.textFrame)) := by
  have hk : k < p.slides.length := get?_lt_length hget
  refine ⟨?_, ?_, ?_, ?_, ?_⟩
  · rw [pptx_duplicate_slide, if_neg (by omega)]
    simp only [Int.toNat_natCast, hget, hlay]
  · simp
  · exact List.take_left _ _
  · exact List.filterMap_append _ _ _
  · exact ⟨(layout.placeholders.map clonePh).filterMap (fun sh => sh.textFrame),
      (List.filterMap_append _ _ _).symm⟩

/-- C3 counterexample: with a layout contributing one (empty) title
placeholder, duplicating a one-shape slide whose text is `"A"` yields a
new slide whose shape text content is `"\nA"`, not `"A"` — the layout's
cloned placeholder stays on the new slide (the source's comment about
removing it is not implemented), so the new slide's shape text content
does not equal the source slide's. -/
theorem c3_placeholder_text_cex :
    pptx_duplicate_slide 0
        ⟨[("rId2", ⟨0, [{ textFrame := some "A" }], none⟩)], ["rId2"],
         [⟨"TitleOnly", [{ name := "Title 1", phIdx := some 0, textFrame := some "" }]⟩]⟩ =
      .ok (⟨[("rId2", ⟨0, [{ textFrame := some "A" }], none⟩),
             ("rId1", ⟨0, [{ name := "Title 1", phIdx := some 0, textFrame := some "" },
                           { textFrame := some "A" }], none⟩)],
            ["rId2", "rId1"],
            [⟨"TitleOnly", [{ name := "Title 1", phIdx := some 0, textFrame := some "" }]⟩]⟩,
           "Duplicated slide 0") ∧
    slideText ⟨0, [{ name := "Title 1", phIdx := some 0, textFrame := some "" },
                   { textFrame := some "A" }], none⟩ = "\nA" ∧
    slideText ⟨0, [{ textFrame := some "A" }], none⟩ = "A" ∧
    ("\nA" : String) ≠ "A" := by
  refine ⟨rfl, rfl, rfl, by decide⟩

/-- C3 witness: the amended theorem applied to the concrete one-slide,
one-layout presentation of the counterexample. -/
theorem c3_witness :
    pptx_duplicate_slide ((0 : Nat) : Int)
        ⟨[("rId2", ⟨0, [{ textFrame := some "A" }], none⟩)], ["rId2"],
         [⟨"TitleOnly", [{ name := "Title 1", phIdx := some 0, textFrame := some "" }]⟩]⟩ =
      .ok (⟨[("rId2", ⟨0, [{ textFrame := some "A" }], none⟩)] ++
              [(freshRId ["rId2"],
                ⟨0, [{ name := "Title 1", phIdx := some 0, textFrame := some "" }].map clonePh ++
                     [{ textFrame := some "A" }], none⟩)],
            ["rId2"] ++ [freshRId ["rId2"]],
            [⟨"TitleOnly", [{ name := "Title 1", phIdx := some 0, textFrame := some "" }]⟩]⟩,
           "Duplicated slide " ++ toString ((0 : Nat) : Int)) := by
  exact (c3_duplicate_appends_layout_placeholders_and_copies
    ⟨[("rId2", ⟨0, [{ textFrame := some "A" }], none⟩)], ["rId2"],
     [⟨"TitleOnly", [{ name := "Title 1", phIdx := some 0, textFrame := some "" }]⟩]⟩
    0 "rId2" ⟨0, [{ textFrame := some "A" }], none⟩
    ⟨"TitleOnly", [{ name := "Title 1", phIdx := some 0, textFrame := some "" }]⟩
    rfl rfl).1

/-! ## C4 -/

/-- The run loop replaces exactly inside matching runs and counts one per
matching run. -/
theorem srRuns_spec (search rep : String) (rs : List Run) :
    (srRuns search rep rs).1 =
      rs.map (fun r => if containsS r.text search then
        { r with text := replaceS r.text search rep } else r) ∧
    (srRuns search rep rs).2 = (rs.filter (fun r => containsS r.text search)).length := by
  induction rs with
  | nil => exact ⟨rfl, rfl⟩
  | cons r rs ih =>
    simp only [srRuns, List.map_cons, List.filter_cons]
    by_cases h : containsS r.text search
    · simp [h, ih.1, ih.2]
    · simp [h, ih.1, ih.2]

/-- The paragraph loop maps the per-paragraph transformation and sums the
per-paragraph counts. -/
theorem srParas_spec (search rep : String) (ps : List Paragraph) :
    (srParas search rep ps).1 =
      ps.map (fun p => if containsS (paraText p) search then
        ⟨p.runs.map (fun r => if containsS r.text search then
          { r with text := replaceS r.text search rep } else r)⟩ else p) ∧
    (srParas search rep ps).2 = (ps.map (paraMatchCount search)).sum := by
  induction ps with
  | nil => exact ⟨rfl, rfl⟩
  | cons p ps ih =>
    simp only [srParas, List.map_cons, List.sum_cons]
    by_cases h : containsS (paraText p) search
    · simp [h, ih.1, ih.2, (srRuns_spec search rep p.runs).1,
        (srRuns_spec search rep p.runs).2, paraMatchCount]
    · simp [h, ih.1, ih.2, paraMatchCount]

/-- C4.  `search_replace` scans paragraphs in document order; inside a
paragraph whose concatenated text contains the search string it replaces
only within runs whose own text contains it; the reported count is the
number of run-level replacements (per-paragraph `paraMatchCount`), not
the occurrence count of the logical text.  A match that spans a run
boundary is never replaced (third conjunct); the two concrete scenarios
of the claim follow. -/
theorem c4_search_replace_run_scoped :
    (∀ (search rep : String) (doc : WordDoc),
      (word_search_replace search rep doc).2 =
        (doc.paragraphs.map (paraMatchCount search)).sum) ∧
    (∀ (search rep : String) (doc : WordDoc),
      (word_search_replace search rep doc).1.paragraphs =
        doc.paragraphs.map (fun p => if containsS (paraText p) search then
          ⟨p.runs.map (fun r => if containsS r.text search then
            { r with text := replaceS r.text search rep } else r)⟩ else p)) ∧
    (∀ (search rep : String) (p : Paragraph),
      (∀ r ∈ p.runs, containsS r.text search = false) →
      word_search_replace search rep ⟨[p]⟩ = (⟨[p]⟩, 0)) ∧
    word_search_replace "foo" "bar" ⟨[⟨[{ text := "foo" }]⟩]⟩ =
      (⟨[⟨[{ text := "bar" }]⟩]⟩, 1) ∧
    word_search_replace "foo" "bar" ⟨[⟨[{ text := "fo" }, { text := "o" }]⟩]⟩ =
      (⟨[⟨[{ text := "fo" }, { text := "o" }]⟩]⟩, 0) := by
  refine ⟨?_, ?_, ?_, by rfl, by rfl⟩
  · intro search rep doc
    simp only [word_search_replace]
    exact (srParas_spec search rep doc.paragraphs).2
  · intro search rep doc
    simp only [word_search_replace]
    exact (srParas_spec search rep doc.paragraphs).1
  · intro search rep p hruns
    have hmap : p.runs.map (fun r => if containsS r.text search then
        { r with text := replaceS r.text search rep } else r) = p.runs := by
      have h := List.map_congr_left (l := p.runs)
        (f := fun r => if containsS r.text search then
          { r with text := replaceS r.text search rep } else r)
        (g := id) (fun r hr => by simp [hruns r hr])
      simpa using h
    have hfil : p.runs.filter (fun r => containsS r.text search) = [] :=
      List.filter_eq_nil_iff.mpr (fun r hr => by simp [hruns r hr])
    have h1 := (srParas_spec search rep [p]).1
    have h2 := (srParas_spec search rep [p]).2
    simp only [word_search_replace]
    rw [h1, h2]
    simp only [List.map_cons, List.map_nil, List.sum_cons, List.sum_nil, paraMatchCount, hfil]
    by_cases h : containsS (paraText p) search
    · simp [h, hmap]
    · simp [h]

/-- C4 witness: the amended-free theorem's run-boundary conjunct applied
to the concrete paragraph split as `"fo"`/`"o"` searching `"foo"`. -/
theorem c4_witness :
    word_search_replace "foo" "bar" ⟨[⟨[{ text := "fo" }, { text := "o" }]⟩]⟩ =
      (⟨[⟨[{ text := "fo" }, { text := "o" }]⟩]⟩, 0) :=
  c4_search_replace_run_scoped.2.2.1 "foo" "bar" ⟨[{ text := "fo" }, { text := "o" }]⟩
    (by decide)

/-! ## C5 -/

/-- C5 (amended).  `update_slide` treats the three optional fields
independently: a set title is written only when a title placeholder
exists (otherwise the slide is untouched); set content is written to the
index-1 placeholder only when the slide has more than one placeholder
(otherwise untouched); but set notes are ALWAYS written — the notes
sub-document is created when none exists, there is no notes-frame
existence check.  Unset fields are left untouched. -/
theorem c5_update_slide_fields :
    (∀ s : Slide, updateSlideFields none none none s = .ok s) ∧
    (∀ (p : Pptx) (k : Nat) (rId : String) (s : Slide) (t : String),
      p.slides.get? k = some (rId, s) →
      pptx_update_slide ⟨(k : Int), none, none, some t⟩ p =
        .ok (⟨setSlideAt p.slides k { s with notes := some t }, p.rels, p.layouts⟩,
             "Updated slide " ++ toString (k : Int))) ∧
    (∀ (s : Slide) (t : String), hasPh s.shapes 0 = false →
      updateSlideFields (some t) none none s = .ok s) ∧
    (∀ (s : Slide) (t : String), hasPh s.shapes 0 = true →
      updateSlideFields (some t) none none s =
        .ok { s with shapes := setPhText s.shapes 0 t }) ∧
    (∀ (s : Slide) (c : String), (placeholdersOf s).length ≤ 1 →
      updateSlideFields none (some c) none s = .ok s) ∧
    (∀ (s : Slide) (c : String), (placeholdersOf s).length > 1 →
      hasPh s.shapes 1 = true →
      updateSlideFields none (some c) none s =
        .ok { s with shapes := setPhText s.shapes 1 c }) := by
  refine ⟨?_, ?_, ?_, ?_, ?_, ?_⟩
  · intro s; rfl
  · intro p k rId s t hget
    have hk : k < p.slides.length := get?_lt_length hget
    rw [pptx_update_slide,
      if_neg (by show ¬((k : Int) < 0 ∨ (p.slides.length : Int) ≤ (k : Int)); omega)]
    simp only [Int.toNat_natCast, hget]
    rfl
  · intro s t h
    simp [updateSlideFields, h, applyNotes]
  · intro s t h
    simp [updateSlideFields, h, applyNotes]
  · intro s c h
    rw [updateSlideFields, if_neg (by omega)]
    rfl
  · intro s c h h1
    simp [updateSlideFields, h, h1, applyNotes]

/-- C5 counterexample: on a slide with NO notes frame (`notes = none`),
`update_slide` with only `notes` set succeeds and writes the notes — the
target did not exist but the field is overwritten anyway (the notes
sub-document is created), contradicting "overwrites ... only if its
corresponding target exists". -/
theorem c5_notes_created_cex :
    pptx_update_slide { slideIndex := 0, notes := some "x" }
        ⟨[("rId1", ⟨0, [], none⟩)], ["rId1"], [⟨"L", []⟩]⟩ =
      .ok (⟨[("rId1", ⟨0, [], some "x"⟩)], ["rId1"], [⟨"L", []⟩]⟩, "Updated slide 0") ∧
    (⟨0, [], none⟩ : Slide).notes = none ∧ some "x" ≠ (none : Option String) := by
  exact ⟨rfl, rfl, by decide⟩

/-- C5 witness: the amended theorem at concrete slides — the no-op case,
the op-level unconditional notes write, and the title-absent case. -/
theorem c5_witness :
    updateSlideFields none none none (⟨0, [], none⟩ : Slide) = .ok ⟨0, [], none⟩ ∧
    pptx_update_slide ⟨((0 : Nat) : Int), none, none, some "n"⟩
        ⟨[("rId1", ⟨0, [], none⟩)], ["rId1"], [⟨"L", []⟩]⟩ =
      .ok (⟨setSlideAt [("rId1", ⟨0, [], none⟩)] 0 { (⟨0, [], none⟩ : Slide) with notes := some "n" },
            ["rId1"], [⟨"L", []⟩]⟩, "Updated slide " ++ toString ((0 : Nat) : Int)) ∧
    updateSlideFields (some "t") none none (⟨0, [], none⟩ : Slide) = .ok ⟨0, [], none⟩ := by
  refine ⟨c5_update_slide_fields.1 ⟨0, [], none⟩, ?_, ?_⟩
  · exact c5_update_slide_fields.2.1 ⟨[("rId1", ⟨0, [], none⟩)], ["rId1"], [⟨"L", []⟩]⟩
      0 "rId1" ⟨0, [], none⟩ "n" rfl
  · exact c5_update_slide_fields.2.2.1 ⟨0, [], none⟩ "t" rfl

/-! ## C6 -/

/-- C6.  `rename_sheet` fails with `NotFound` when the sheet name is
absent from the workbook, and a rename with a missing or empty new name
never succeeds (the codec's title setter rejects it; the request errors
and nothing is saved). -/
theorem c6_rename_sheet_guards :
    (∀ (wb : Workbook) (name : String) (newName : Option String),
      wb.sheets.lookup name = none →
      excel_rename_sheet name newName wb =
        .error (.notFound ("Sheet '" ++ name ++ "' not found"))) ∧
    (∀ (wb : Workbook) (name : String) (wb' : Workbook) (m : String),
      excel_rename_sheet name none wb ≠ .ok (wb', m)) ∧
    (∀ (wb : Workbook) (name : String) (wb' : Workbook) (m : String),
      excel_rename_sheet name (some "") wb ≠ .ok (wb', m)) := by
  refine ⟨?_, ?_, ?_⟩
  · intro wb name newName h
    rw [excel_rename_sheet.eq_def, if_pos (by simp [h])]
  · intro wb name wb' m
    rw [excel_rename_sheet.eq_def]
    split
    · exact fun h => Except.noConfusion h
    · exact fun h => Except.noConfusion h
  · intro wb name wb' m
    rw [excel_rename_sheet.eq_def]
    split
    · exact fun h => Except.noConfusion h
    · simp

/-- C6 witness: concrete one-sheet workbook. -/
theorem c6_witness :
    excel_rename_sheet "Nope" (some "A") ⟨[("Sheet1", emptySheet)]⟩ =
      .error (.notFound ("Sheet '" ++ "Nope" ++ "' not found")) ∧
    excel_rename_sheet "Sheet1" none ⟨[("Sheet1", emptySheet)]⟩ ≠
      .ok (⟨[("Sheet1", emptySheet)]⟩, "m") ∧
    excel_rename_sheet "Sheet1" (some "") ⟨[("Sheet1", emptySheet)]⟩ ≠
      .ok (⟨[("Sheet1", emptySheet)]⟩, "m") := by
  refine ⟨?_, ?_, ?_⟩
  · exact c6_rename_sheet_guards.1 ⟨[("Sheet1", emptySheet)]⟩ "Nope" (some "A") rfl
  · exact c6_rename_sheet_guards.2.1 ⟨[("Sheet1", emptySheet)]⟩ "Sheet1" _ _
  · exact c6_rename_sheet_guards.2.2 ⟨[("Sheet1", emptySheet)]⟩ "Sheet1" _ _

/-! ## C7 -/

/-- An absent key makes an association-list lookup fail. -/
theorem lookup_eq_none_of_not_mem_fst {α β : Type} [BEq α] [LawfulBEq α]
    {l : List (α × β)} {a : α} (h : a ∉ l.map Prod.fst) : l.lookup a = none := by
  induction l with
  | nil => rfl
  | cons e rest ih =>
    simp only [List.map_cons, List.mem_cons] at h
    push_neg at h
    simp only [List.lookup]
    rw [show (a == e.1) = false from beq_eq_false_iff_ne.mpr h.1]
    exact ih h.2

/-- C7.  `add_shape` resolves the shape-type string through `shape_map`
(after lowercasing); every string whose lowercase form is not one of the
eleven recognized keys falls back to `rectangle` and the request is never
rejected for it: with a valid slide index (and a well-formed or absent
fill color) the operation succeeds, appending exactly the shape described
by `mkAddedShape` — preset from `shapeLookup`, the explicit
left/top/width/height bounds, the request text, and the optional solid
fill. -/
theorem c7_add_shape_default_rectangle :
    (∀ s : String, toLowerC s ∉ shape_map.map Prod.fst → shapeLookup s = .rectangle) ∧
    (shapeLookup "rectangle" = .rectangle ∧
     shapeLookup "rounded_rectangle" = .roundedRectangle ∧
     shapeLookup "oval" = .oval ∧
     shapeLookup "triangle" = .isoscelesTriangle ∧
     shapeLookup "diamond" = .diamond ∧
     shapeLookup "pentagon" = .pentagon ∧
     shapeLookup "hexagon" = .hexagon ∧
     shapeLookup "cloud" = .cloud ∧
     shapeLookup "star" = .star5Point ∧
     shapeLookup "arrow_right" = .rightArrow ∧
     shapeLookup "arrow_left" = .leftArrow) ∧
    (∀ (req : AddPptxShapeReq) (p : Pptx) (k : Nat) (rId : String) (s : Slide),
      p.slides.get? k = some (rId, s) → req.slideIndex = (k : Int) →
      fillOk req.fillColor = true →
      pptx_add_shape req p =
        .ok (⟨setSlideAt p.slides k { s with shapes := s.shapes ++ [mkAddedShape req] },
              p.rels, p.layouts⟩,
             "Shape '" ++ req.shapeType ++ "' added to slide " ++ toString req.slideIndex)) := by
  refine ⟨?_, ⟨rfl, rfl, rfl, rfl, rfl, rfl, rfl, rfl, rfl, rfl, rfl⟩, ?_⟩
  · intro s h
    rw [shapeLookup, lookup_eq_none_of_not_mem_fst h]
  · intro req p k rId s hget hidx hfill
    have hk : k < p.slides.length := get?_lt_length hget
    rw [pptx_add_shape, if_neg (by rw [hidx]; push_neg; omega)]
    rw [hidx]
    simp only [Int.toNat_natCast, hget, hfill, if_true]

/-- C7 witness: the unrecognized key `"blob"` renders as a rectangle and
the request succeeds on a concrete one-slide presentation. -/
theorem c7_witness :
    shapeLookup "blob" = .rectangle ∧
    pptx_add_shape { slideIndex := ((0 : Nat) : Int), shapeType := "blob" }
        ⟨[("rId1", ⟨0, [], none⟩)], ["rId1"], [⟨"L", []⟩]⟩ =
      .ok (⟨setSlideAt [("rId1", ⟨0, [], none⟩)] 0
              { (⟨0, [], none⟩ : Slide) with
                shapes := [] ++ [mkAddedShape { slideIndex := ((0 : Nat) : Int), shapeType := "blob" }] },
            ["rId1"], [⟨"L", []⟩]⟩,
           "Shape '" ++ "blob" ++ "' added to slide " ++
             toString (({ slideIndex := ((0 : Nat) : Int), shapeType := "blob" } : AddPptxShapeReq)).slideIndex) := by
  refine ⟨?_, ?_⟩
  · exact c7_add_shape_default_rectangle.1 "blob" (by decide)
  · exact c7_add_shape_default_rectangle.2.2
      { slideIndex := ((0 : Nat) : Int), shapeType := "blob" }
      ⟨[("rId1", ⟨0, [], none⟩)], ["rId1"], [⟨"L", []⟩]⟩ 0 "rId1" ⟨0, [], none⟩
      rfl rfl rfl

/-! ## C10 -/

/-- A name occurring among the keys makes the lookup succeed. -/
theorem lookup_isSome_of_mem_fst {α β : Type} [BEq α] [LawfulBEq α]
    {l : List (α × β)} {a : α} (h : a ∈ l.map Prod.fst) : (l.lookup a).isSome := by
  induction l with
  | nil => simp at h
  | cons e rest ih =>
    simp only [List.map_cons, List.mem_cons] at h
    simp only [List.lookup]
    by_cases he : a = e.1
    · rw [show (a == e.1) = true from beq_iff_eq.mpr he]
      rfl
    · rw [show (a == e.1) = false from beq_eq_false_iff_ne.mpr he]
      exact ih (h.resolve_left he)

/-- Mapping `Prod.fst` over a name-keyed `filterMap` whose lookups all
succeed returns the name list itself. -/
theorem filterMap_lookup_map_fst {β : Type} (sheets : List (String × Sheet))
    (g : String → Sheet → β) :
    ∀ names : List String, (∀ n ∈ names, (sheets.lookup n).isSome) →
    (names.filterMap (fun n => (sheets.lookup n).map (fun sh => (n, g n sh)))).map Prod.fst =
      names := by
  intro names
  induction names with
  | nil => intro _; rfl
  | cons n rest ih =>
    intro h
    have hn := h n (List.mem_cons_self n rest)
    obtain ⟨sh, hsh⟩ := Option.isSome_iff_exists.mp hn
    have ht := ih (fun x hx => h x (List.mem_cons_of_mem n hx))
    simp [List.filterMap_cons, hsh, ht]

/-- C10 (amended).  `excel_read` with a NON-EMPTY `sheet_name` absent
from the workbook does not fail with `NotFound`: it succeeds with an
empty sheets object; with no `sheet_name` it returns every sheet (the
returned names are exactly the workbook's sheet names in order).  An
EMPTY-STRING `sheet_name` is falsy in Python and also selects the
all-sheets branch, rather than being treated as an absent name. -/
theorem c10_read_absent_sheet :
    (∀ (wb : Workbook) (n : String), n ≠ "" → wb.sheets.lookup n = none →
      excel_read (some n) wb = .ok []) ∧
    (∀ wb : Workbook, ∃ L, excel_read none wb = .ok L ∧
      L.map Prod.fst = wb.sheets.map Prod.fst) ∧
    (∀ wb : Workbook, ∃ L, excel_read (some "") wb = .ok L ∧
      L.map Prod.fst = wb.sheets.map Prod.fst) := by
  refine ⟨?_, ?_, ?_⟩
  · intro wb n hne h
    simp [excel_read, hne, h]
  · intro wb
    refine ⟨_, rfl, ?_⟩
    exact filterMap_lookup_map_fst wb.sheets _ (wb.sheets.map Prod.fst)
      (fun n hn => lookup_isSome_of_mem_fst hn)
  · intro wb
    refine ⟨_, rfl, ?_⟩
    exact filterMap_lookup_map_fst wb.sheets _ (wb.sheets.map Prod.fst)
      (fun n hn => lookup_isSome_of_mem_fst hn)

/-- C10 counterexample: `sheet_name = ""` is never a present sheet name
of this one-sheet workbook, yet `excel_read` does not return an empty
sheets object — Python's truthiness test (`if req.sheet_name`) routes
the empty string to the all-sheets branch, so every sheet is returned. -/
theorem c10_empty_name_cex :
    ("" ∉ ([("Sheet1", emptySheet)] : List (String × Sheet)).map Prod.fst) ∧
    excel_read (some "") ⟨[("Sheet1", emptySheet)]⟩ =
      .ok [("Sheet1", ([[""]], false))] ∧
    (.ok [("Sheet1", ([[""]], false))] :
        ApiResult (List (String × (List (List String) × Bool)))) ≠ .ok [] := by
  refine ⟨by decide, rfl, by simp⟩

/-- C10 witness: reading the absent non-empty name `"Nope"` from a
concrete one-sheet workbook yields a success with an empty sheets
object, while the empty-string name returns every sheet. -/
theorem c10_witness :
    excel_read (some "Nope") ⟨[("Sheet1", emptySheet)]⟩ = .ok [] ∧
    (∃ L, excel_read (some "") ⟨[("Sheet1", emptySheet)]⟩ = .ok L ∧
      L.map Prod.fst = ([("Sheet1", emptySheet)] : List (String × Sheet)).map Prod.fst) := by
  refine ⟨c10_read_absent_sheet.1 ⟨[("Sheet1", emptySheet)]⟩ "Nope" (by decide) rfl,
    c10_read_absent_sheet.2.2 ⟨[("Sheet1", emptySheet)]⟩⟩

/-! ## C8 helper lemmas -/

/-- `foldl Nat.min` never exceeds its initial value. -/
theorem foldl_min_le_self : ∀ (xs : List Nat) (x : Nat), xs.foldl Nat.min x ≤ x
  | [], _ => Nat.le_refl _
  | y :: ys, x =>
    Nat.le_trans (foldl_min_le_self ys (Nat.min x y)) (Nat.min_le_left x y)

/-- `foldl Nat.min` never exceeds a member. -/
theorem foldl_min_le_mem : ∀ (xs : List Nat) (x a : Nat), a ∈ xs → xs.foldl Nat.min x ≤ a := by
  intro xs
  induction xs with
  | nil => intro x a h; simp at h
  | cons y ys ih =>
    intro x a h
    rcases List.mem_cons.mp h with h | h
    · subst h
      exact Nat.le_trans (foldl_min_le_self ys (Nat.min x a)) (Nat.min_le_right x a)
    · exact ih (Nat.min x y) a h

/-- `foldl Nat.max` dominates its initial value. -/
theorem le_foldl_max_self : ∀ (xs : List Nat) (x : Nat), x ≤ xs.foldl Nat.max x
  | [], _ => Nat.le_refl _
  | y :: ys, x =>
    Nat.le_trans (Nat.le_max_left x y) (le_foldl_max_self ys (Nat.max x y))

/-- `foldl Nat.max` dominates every member. -/
theorem le_foldl_max_mem : ∀ (xs : List Nat) (x a : Nat), a ∈ xs → a ≤ xs.foldl Nat.max x := by
  intro xs
  induction xs with
  | nil => intro x a h; simp at h
  | cons y ys ih =>
    intro x a h
    rcases List.mem_cons.mp h with h | h
    · subst h
      exact Nat.le_trans (Nat.le_max_right x a) (le_foldl_max_self ys (Nat.max x a))
    · exact ih (Nat.max x y) a h

/-- A successful lookup produces a member entry. -/
theorem lookup_mem {α β : Type} [BEq α] [LawfulBEq α]
    {l : List (α × β)} {k : α} {v : β} (h : l.lookup k = some v) : (k, v) ∈ l := by
  induction l with
  | nil => exact Option.noConfusion h
  | cons e rest ih =>
    simp only [List.lookup] at h
    by_cases he : k = e.1
    · rw [show (k == e.1) = true from beq_iff_eq.mpr he] at h
      have hv : e.2 = v := by simpa using h
      have heq : (k, v) = e := by cases e; simp_all
      exact heq ▸ List.mem_cons_self _ _
    · rw [show (k == e.1) = false from beq_eq_false_iff_ne.mpr he] at h
      exact List.mem_cons_of_mem e (ih h)

/-- A present cell lies inside the used range read by `iter_rows`. -/
theorem getCell_bounds {sh : Sheet} {r c : Nat} {v : CellVal}
    (h : getCell sh r c = some v) :
    minRow sh ≤ r ∧ r ≤ maxRow sh ∧ minCol sh ≤ c ∧ c ≤ maxCol sh := by
  have hmem : ((r, c), v) ∈ sh.cells := lookup_mem h
  have hr : r ∈ sh.cells.map (fun e => e.1.1) :=
    List.mem_map.mpr ⟨((r, c), v), hmem, rfl⟩
  have hc : c ∈ sh.cells.map (fun e => e.1.2) :=
    List.mem_map.mpr ⟨((r, c), v), hmem, rfl⟩
  refine ⟨?_, ?_, ?_, ?_⟩
  · rw [minRow]
    cases hrows : sh.cells.map (fun e => e.1.1) with
    | nil => rw [hrows] at hr; simp at hr
    | cons x xs =>
      rw [hrows] at hr
      rcases List.mem_cons.mp hr with h' | h'
      · exact h' ▸ foldl_min_le_self xs x
      · exact foldl_min_le_mem xs x r h'
  · rw [maxRow]
    cases hrows : sh.cells.map (fun e => e.1.1) with
    | nil => rw [hrows] at hr; simp at hr
    | cons x xs =>
      rw [hrows] at hr
      rcases List.mem_cons.mp hr with h' | h'
      · exact h' ▸ le_foldl_max_self xs x
      · exact le_foldl_max_mem xs x r h'
  · rw [minCol]
    cases hcols : sh.cells.map (fun e => e.1.2) with
    | nil => rw [hcols] at hc; simp at hc
    | cons x xs =>
      rw [hcols] at hc
      rcases List.mem_cons.mp hc with h' | h'
      · exact h' ▸ foldl_min_le_self xs x
      · exact foldl_min_le_mem xs x c h'
  · rw [maxCol]
    cases hcols : sh.cells.map (fun e => e.1.2) with
    | nil => rw [hcols] at hc; simp at hc
    | cons x xs =>
      rw [hcols] at hc
      rcases List.mem_cons.mp hc with h' | h'
      · exact h' ▸ le_foldl_max_self xs x
      · exact le_foldl_max_mem xs x c h'

/-- Indexing `range'`. -/
theorem range'_get? : ∀ (n s i : Nat), i < n → (List.range' s n).get? i = some (s + i) := by
  intro n
  induction n with
  | zero => intro s i h; omega
  | succ m ih =>
    intro s i h
    cases i with
    | zero => rfl
    | succ j =>
      rw [List.range'_succ]
      show (List.range' (s + 1) m).get? j = some (s + (j + 1))
      rw [ih (s + 1) j (by omega)]
      congr 1
      omega

/-- The entry of `readSheet` at the coordinates of a cell inside the used
range is the coerced display of that cell. -/
theorem readSheet_entry {sh : Sheet} {r c : Nat}
    (h1 : minRow sh ≤ r) (h2 : r ≤ maxRow sh)
    (h3 : minCol sh ≤ c) (h4 : c ≤ maxCol sh) :
    ∃ row, (readSheet sh).get? (r - minRow sh) = some row ∧
      row.get? (c - minCol sh) = some (cellDisplay sh r c) := by
  refine ⟨(List.range' (minCol sh) (maxCol sh + 1 - minCol sh)).map (cellDisplay sh r), ?_, ?_⟩
  · rw [readSheet, List.get?_map, range'_get? _ _ _ (by omega),
      show minRow sh + (r - minRow sh) = r from by omega]
    rfl
  · rw [List.get?_map, range'_get? _ _ _ (by omega),
      show minCol sh + (c - minCol sh) = c from by omega]
    rfl

/-! ## C8 -/

/-- C8.  `excel_read` coerces every present cell to its textual
representation (`str(cell)`) and renders an absent cell inside the used
range as the empty string; consequently `write_data` with headers
`["X"]` and rows `[["5"]]` on a fresh sheet followed by `read` of that
sheet returns `[["X"], ["5"]]` (headers in row 1, data from row 2). -/
theorem c8_read_coercion :
    (∀ (sh : Sheet) (r c : Nat) (v : CellVal), getCell sh r c = some v →
      ∃ row, (readSheet sh).get? (r - minRow sh) = some row ∧
        row.get? (c - minCol sh) = some (cellStr v)) ∧
    (∀ (sh : Sheet) (r c : Nat), getCell sh r c = none →
      minRow sh ≤ r → r ≤ maxRow sh → minCol sh ≤ c → c ≤ maxCol sh →
      ∃ row, (readSheet sh).get? (r - minRow sh) = some row ∧
        row.get? (c - minCol sh) = some "") ∧
    (∃ wb1 : Workbook,
      excel_write_data { sheetName := "Sheet1", headers := ["X"], rows := [["5"]] }
          ⟨[("Sheet1", emptySheet)]⟩ = .ok (wb1, "Data written to Sheet1") ∧
      excel_read (some "Sheet1") wb1 = .ok [("Sheet1", ([["X"], ["5"]], false))]) := by
  refine ⟨?_, ?_, ?_⟩
  · intro sh r c v h
    obtain ⟨h1, h2, h3, h4⟩ := getCell_bounds h
    obtain ⟨row, hrow, hcell⟩ := readSheet_entry h1 h2 h3 h4
    exact ⟨row, hrow, by rwa [show cellDisplay sh r c = cellStr v from by simp [cellDisplay, h]] at hcell⟩
  · intro sh r c h h1 h2 h3 h4
    obtain ⟨row, hrow, hcell⟩ := readSheet_entry h1 h2 h3 h4
    exact ⟨row, hrow, by rwa [show cellDisplay sh r c = "" from by simp [cellDisplay, h]] at hcell⟩
  · exact ⟨⟨[("Sheet1", ⟨[((2, 1), .s "5"), ((1, 1), .s "X")], "visible"⟩)]⟩, rfl, rfl⟩

/-- C8 witness: the coercion conjuncts applied to a concrete sheet with
cells at (1,1) and (2,2): the present cell (1,1) reads as `"X"`, the
absent cell (1,2) inside the used range reads as `""`. -/
theorem c8_witness :
    (∃ row, (readSheet ⟨[((1, 1), .s "X"), ((2, 2), .i 7)], "visible"⟩).get? (1 - minRow ⟨[((1, 1), .s "X"), ((2, 2), .i 7)], "visible"⟩) = some row ∧
      row.get? (1 - minCol ⟨[((1, 1), .s "X"), ((2, 2), .i 7)], "visible"⟩) = some (cellStr (.s "X"))) ∧
    (∃ row, (readSheet ⟨[((1, 1), .s "X"), ((2, 2), .i 7)], "visible"⟩).get? (1 - minRow ⟨[((1, 1), .s "X"), ((2, 2), .i 7)], "visible"⟩) = some row ∧
      row.get? (2 - minCol ⟨[((1, 1), .s "X"), ((2, 2), .i 7)], "visible"⟩) = some "") := by
  refine ⟨?_, ?_⟩
  · exact c8_read_coercion.1 ⟨[((1, 1), .s "X"), ((2, 2), .i 7)], "visible"⟩ 1 1 (.s "X") rfl
  · exact c8_read_coercion.2.1 ⟨[((1, 1), .s "X"), ((2, 2), .i 7)], "visible"⟩ 1 2 rfl
      (by decide) (by decide) (by decide) (by decide)

/-! ## C9 helper lemmas -/

/-- Filtering out one key leaves every other lookup unchanged. -/
theorem lookup_filter_ne (l : List ((Nat × Nat) × CellVal)) (k k0 : Nat × Nat)
    (hne : k ≠ k0) :
    (l.filter (fun e => e.1 ≠ k0)).lookup k = l.lookup k := by
  induction l with
  | nil => rfl
  | cons e rest ih =>
    by_cases he : e.1 = k0
    · rw [List.filter_cons_of_neg (by simp [he])]
      rw [ih]
      simp only [List.lookup]
      rw [show (k == e.1) = false from beq_eq_false_iff_ne.mpr (by rw [he]; exact hne)]
    · rw [List.filter_cons_of_pos (by simp [he])]
      simp only [List.lookup]
      by_cases hk : k = e.1
      · rw [show (k == e.1) = true from beq_iff_eq.mpr hk]
      · rw [show (k == e.1) = false from beq_eq_false_iff_ne.mpr hk]
        exact ih

/-- `setCell` only touches the addressed cell. -/
theorem getCell_setCell (sh : Sheet) (r c : Nat) (v : CellVal) (r' c' : Nat) :
    getCell (setCell sh r c v) r' c' =
      if (r', c') = (r, c) then some v else getCell sh r' c' := by
  by_cases h : (r', c') = (r, c)
  · rw [if_pos h]
    simp only [getCell, setCell, List.lookup]
    rw [show ((r', c') == (r, c)) = true from beq_iff_eq.mpr h]
  · rw [if_neg h]
    simp only [getCell, setCell, List.lookup]
    rw [show ((r', c') == (r, c)) = false from beq_eq_false_iff_ne.mpr h]
    exact lookup_filter_ne sh.cells (r', c') (r, c) h

/-- A row write leaves every cell outside its row segment unchanged. -/
theorem getCell_writeRowFrom (vs : List String) (sh : Sheet) (r c r' c' : Nat)
    (h : r' ≠ r ∨ c' < c ∨ c + vs.length ≤ c') :
    getCell (writeRowFrom sh r c vs) r' c' = getCell sh r' c' := by
  induction vs generalizing sh c with
  | nil => rfl
  | cons v vs ih =>
    rw [writeRowFrom]
    rw [ih (setCell sh r c (.s v)) (c + 1)
        (by rcases h with h | h | h
            · exact Or.inl h
            · exact Or.inr (Or.inl (by omega))
            · exact Or.inr (Or.inr (by simp at h ⊢; omega)))]
    rw [getCell_setCell]
    rw [if_neg (by
      rcases h with h | h | h
      · simp [Prod.ext_iff]; omega
      · simp [Prod.ext_iff]; omega
      · simp only [List.length_cons] at h
        simp [Prod.ext_iff]; omega)]

/-- The data-row loop leaves every cell outside the written rows (or
beyond each written row's width, or in column 0) unchanged. -/
theorem getCell_writeRowsFrom (rows : List (List String)) (sh : Sheet) (r r' c' : Nat)
    (h : ∀ i row, rows.get? i = some row → r' = r + i → c' = 0 ∨ row.length + 1 ≤ c') :
    getCell (writeRowsFrom sh r rows) r' c' = getCell sh r' c' := by
  induction rows generalizing sh r with
  | nil => rfl
  | cons row rest ih =>
    rw [writeRowsFrom]
    rw [ih (writeRowFrom sh r 1 row) (r + 1)
        (fun i row' hi hr => h (i + 1) row' (by simpa using hi) (by omega))]
    by_cases hr : r' = r
    · rcases h 0 row rfl (by omega) with hc | hc
      · exact getCell_writeRowFrom row sh r 1 r' c' (Or.inr (Or.inl (by omega)))
      · exact getCell_writeRowFrom row sh r 1 r' c' (Or.inr (Or.inr (by omega)))
    · exact getCell_writeRowFrom row sh r 1 r' c' (Or.inl hr)

/-- The cells of a sheet are unchanged by a `sheet_state` change. -/
theorem getCell_state (sh : Sheet) (st : String) (r c : Nat) :
    getCell { sh with state := st } r c = getCell sh r c := rfl

/-- Frame property of the per-sheet body of `write_data`: every cell
outside the written rectangle keeps its value. -/
theorem getCell_writeDataSheet (req : WriteExcelDataReq) (sh : Sheet) (r c : Nat)
    (h : ¬ writtenCell req r c) :
    getCell (writeDataSheet req sh) r c = getCell sh r c := by
  have hrows : ∀ i row, req.rows.get? i = some row → r = 2 + i →
      c = 0 ∨ row.length + 1 ≤ c := by
    intro i row hi hr
    by_contra hc
    push_neg at hc
    exact h (Or.inr ⟨i, row, hi, by omega, by omega, by omega⟩)
  have hhead : r ≠ 1 ∨ c < 1 ∨ 1 + req.headers.length ≤ c := by
    by_contra hc
    push_neg at hc
    exact h (Or.inl ⟨hc.1, by omega, by omega⟩)
  rw [writeDataSheet]
  by_cases hh : req.hidden
  · rw [if_pos hh, getCell_state,
      getCell_writeRowsFrom req.rows _ 2 r c hrows,
      getCell_writeRowFrom req.headers sh 1 1 r c hhead]
  · rw [if_neg hh,
      getCell_writeRowsFrom req.rows _ 2 r c hrows,
      getCell_writeRowFrom req.headers sh 1 1 r c hhead]

/-- Updating a named sheet rewrites exactly that name's lookup. -/
theorem lookup_updateSheet_self (l : List (String × Sheet)) (name : String)
    (f : Sheet → Sheet) :
    (updateSheet l name f).lookup name = (l.lookup name).map f := by
  induction l with
  | nil => rfl
  | cons e rest ih =>
    obtain ⟨n, sh⟩ := e
    rw [updateSheet]
    by_cases hn : n = name
    · rw [if_pos hn]
      simp only [List.lookup]
      rw [show (name == n) = true from beq_iff_eq.mpr hn.symm]
      rfl
    · rw [if_neg hn]
      simp only [List.lookup]
      rw [show (name == n) = false from beq_eq_false_iff_ne.mpr (fun hh => hn hh.symm)]
      exact ih

/-- When the name was absent, `create_sheet` appends it and the update
targets the fresh empty sheet. -/
theorem lookup_updateSheet_append_new (l : List (String × Sheet)) (name : String)
    (f : Sheet → Sheet) (h : l.lookup name = none) :
    (updateSheet (l ++ [(name, emptySheet)]) name f).lookup name = some (f emptySheet) := by
  induction l with
  | nil =>
    simp only [List.nil_append, updateSheet, if_pos rfl, List.lookup]
    rw [show (name == name) = true from beq_iff_eq.mpr rfl]
  | cons e rest ih =>
    obtain ⟨n, sh⟩ := e
    simp only [List.lookup] at h
    by_cases hn : name = n
    · rw [show (name == n) = true from beq_iff_eq.mpr hn] at h
      exact Option.noConfusion h
    · rw [show (name == n) = false from beq_eq_false_iff_ne.mpr hn] at h
      rw [List.cons_append, updateSheet, if_neg (fun hh => hn hh.symm)]
      simp only [List.lookup]
      rw [show (name == n) = false from beq_eq_false_iff_ne.mpr hn]
      exact ih h

/-! ## C9 -/

/-- C9.  `write_data` targets the sheet by name, creating it when absent
(the written sheet then starts empty), and never clears cells outside the
written rectangle: every pre-existing cell outside headers-row-1 /
data-rows-from-2 keeps its exact value. -/
theorem c9_write_data_frame :
    (∀ (req : WriteExcelDataReq) (sh : Sheet) (r c : Nat), ¬ writtenCell req r c →
      getCell (writeDataSheet req sh) r c = getCell sh r c) ∧
    (∀ (req : WriteExcelDataReq) (wb : Workbook) (sh : Sheet),
      wb.sheets.lookup req.sheetName = some sh →
      ∃ wb' m, excel_write_data req wb = .ok (wb', m) ∧
        wb'.sheets.lookup req.sheetName = some (writeDataSheet req sh)) ∧
    (∀ (req : WriteExcelDataReq) (wb : Workbook),
      wb.sheets.lookup req.sheetName = none →
      ∃ wb' m, excel_write_data req wb = .ok (wb', m) ∧
        wb'.sheets.lookup req.sheetName = some (writeDataSheet req emptySheet)) := by
  refine ⟨getCell_writeDataSheet, ?_, ?_⟩
  · intro req wb sh hsh
    refine ⟨⟨updateSheet wb.sheets req.sheetName (writeDataSheet req)⟩,
      "Data written to " ++ req.sheetName, ?_, ?_⟩
    · rw [excel_write_data, if_pos (by rw [hsh]; rfl)]
    · rw [lookup_updateSheet_self, hsh]
      rfl
  · intro req wb hnone
    refine ⟨⟨updateSheet (wb.sheets ++ [(req.sheetName, emptySheet)]) req.sheetName
        (writeDataSheet req)⟩,
      "Data written to " ++ req.sheetName, ?_, ?_⟩
    · rw [excel_write_data, if_neg (by rw [hnone]; simp)]
    · exact lookup_updateSheet_append_new wb.sheets req.sheetName _ hnone

/-- C9 witness: writing headers `["X"]` / rows `[["5"]]` to a sheet whose
cell (3,3) pre-exists leaves (3,3) unchanged; the absent-sheet branch
creates the sheet. -/
theorem c9_witness :
    getCell (writeDataSheet { sheetName := "Sheet1", headers := ["X"], rows := [["5"]] }
        ⟨[((3, 3), .i 9)], "visible"⟩) 3 3 =
      getCell ⟨[((3, 3), .i 9)], "visible"⟩ 3 3 ∧
    (∃ wb' m, excel_write_data { sheetName := "New", headers := ["X"], rows := [] }
        ⟨[("Sheet1", emptySheet)]⟩ = .ok (wb', m) ∧
      wb'.sheets.lookup "New" =
        some (writeDataSheet { sheetName := "New", headers := ["X"], rows := [] } emptySheet)) := by
  refine ⟨?_, ?_⟩
  · refine c9_write_data_frame.1 _ _ 3 3 ?_
    rintro (⟨h1, -, -⟩ | ⟨i, row, hi, hr, -, hc⟩)
    · omega
    · have hi1 : i = 1 := by omega
      subst hi1
      simp at hi
  · exact c9_write_data_frame.2.2 { sheetName := "New", headers := ["X"], rows := [] }
      ⟨[("Sheet1", emptySheet)]⟩ rfl

end OfficeService
